import Mathlib

/-!

# Verification of the rag-101 paper notes / QA pipeline

This file gives a shallow embedding of the TypeScript sources of the
repository (the notes pipeline, the local JSON storage helpers, the
Supabase wrapper and the two QA entry points) and proves or refutes the
frozen claims about them.

Conventions of the embedding:

* JavaScript strings are Lean String values; where kernel reduction
  matters we use our own character-list helpers instead of opaque
  library primitives.
* File system effects are modelled by explicit state records; the
  content of a JSON file is a FileState value: the file is missing,
  exists but is empty (JSON.parse of an empty string throws), or holds
  the parsed value.  Only contents writable by the program itself, plus
  the empty file, are represented.
* Fallible code returns Except; a JavaScript throw is an Except.error
  carrying the message (emoji decorations of the original messages are
  omitted).
* External collaborators (the chat model, the embeddings store, the pdf
  loader, the network) are oracles supplied through an Env record; a
  call counter records how often the model chain and the retriever are
  invoked.
-/

namespace Rag101

/-- Model of the note objects produced by the notes tool schema
(notes/prompt.ts): a free text note plus originating page numbers. -/
structure ArxivPaperNote where
  note : String
  pageNumbers : List Nat
deriving DecidableEq, Repr

/-- Model of a langchain Document: only the page content is relevant to
the claims; metadata is dropped. -/
structure Document where
  pageContent : String
deriving DecidableEq, Repr

/-- Character-level join, mirroring Array.prototype.join with a string
separator. -/
def joinWith (sep : String) : List String → String
  | [] => ""
  | [s] => s
  | s :: rest => s ++ sep ++ joinWith sep rest

/-- Model of formatDocumentsAsString from langchain/util/document: the
page contents joined by blank lines. -/
def formatDocumentsAsString (docs : List Document) : String :=
  joinWith "\n\n" (docs.map (fun d => d.pageContent))

/-- Boolean test that the string s ends with the string e, mirroring
String.prototype.endsWith. -/
def strEndsWith (s e : String) : Bool :=
  s.data.reverse.take e.data.length == e.data.reverse

/-- Boolean test that the string s starts with the string e, mirroring
String.prototype.startsWith. -/
def strStartsWith (s e : String) : Bool :=
  s.data.take e.data.length == e.data

/-- Drop the first n characters of a string. -/
def strDrop (s : String) (n : Nat) : String :=
  String.mk (s.data.drop n)

/-- Split a character list at every occurrence of the separator
character, mirroring String.prototype.split with a one-character
separator (an empty input yields one empty field). -/
def splitOnChar (sep : Char) : List Char → List (List Char)
  | [] => [[]]
  | c :: cs =>
    if c = sep then [] :: splitOnChar sep cs
    else
      match splitOnChar sep cs with
      | [] => [[c]]
      | t :: ts => (c :: t) :: ts

/-- Join character-list fields with a separator character; inverse of
splitOnChar on separator-free fields. -/
def joinChar (sep : Char) : List (List Char) → List Char
  | [] => []
  | [t] => t
  | t :: ts => t ++ sep :: joinChar sep ts

/-- Model of node path.basename: the last non-empty slash-separated
component of the path. -/
def basename (p : String) : String :=
  String.mk ((((splitOnChar '/' p.data)).filter (fun t => !t.isEmpty)).getLastD p.data)

/-- State of one JSON file on disk: missing, present but empty, or
holding a stored (parsed) value. -/
inductive FileState (α : Type) where
  | missing : FileState α
  | empty : FileState α
  | stored : α → FileState α
deriving DecidableEq, Repr

/-! ## Page deletion (deletePages) and page-list parsing
(processPagesToDelete), for claim C3 -/

/-- Model of pdf-lib PDFDocument.removePage on a page list: drop the
element at the 0-based index, identity when the index is past the
end (the out-of-range throw is handled by the caller guard). -/
def removeAt {α : Type} : List α → Nat → List α
  | [], _ => []
  | _ :: as, 0 => as
  | a :: as, n + 1 => a :: removeAt as n

/-- Loop body of deletePages (notes/index.ts): walk the requested page
numbers with an offset that grows by one per removal; a page number
that maps to an out-of-range 0-based index makes pdf-lib throw, which
the surrounding catch turns into a failure (none). -/
def deletePagesAux {α : Type} (pages : List Nat) (offset : Nat) (pdf : List α) : Option (List α) :=
  match pages with
  | [] => some pdf
  | p :: rest =>
    if offset ≤ p ∧ p - offset < pdf.length then
      deletePagesAux rest (offset + 1) (removeAt pdf (p - offset))
    else none

/-- Model of deletePages (notes/index.ts): a pdf is its list of pages;
the offset starts at 1 as in the source (numToOffsetBy). -/
def deletePages {α : Type} (pdf : List α) (pagesToDelete : List Nat) : Option (List α) :=
  deletePagesAux pagesToDelete 1 pdf

/-- Pair every element of a list with its position, starting at n. -/
def withPositions {α : Type} (n : Nat) : List α → List (Nat × α)
  | [] => []
  | a :: as => (n, a) :: withPositions (n + 1) as

/-- Specification-side description of page removal: keep exactly the
pages whose 1-based position is not listed, in their original order. -/
def removeListedPages {α : Type} (pdf : List α) (pages : List Nat) : List α :=
  ((withPositions 1 pdf).filter (fun x => !(decide (x.1 ∈ pages)))).map Prod.snd

/-- Positional filter used to reason about deletePagesAux: walk the pdf
keeping elements whose running position is not listed. -/
def keepFilter {α : Type} (pages : List Nat) (offset : Nat) : List α → List α
  | [] => []
  | a :: rest =>
    if offset ∈ pages then keepFilter pages (offset + 1) rest
    else a :: keepFilter pages (offset + 1) rest

/-- JavaScript decimal digit value of a character. -/
def digitVal (c : Char) : Nat := c.toNat - 48

/-- Numeric value of a list of decimal digit characters, most
significant first. -/
def digitsVal (cs : List Char) : Nat :=
  cs.foldl (fun acc c => 10 * acc + digitVal c) 0

/-- Whitespace test covering the characters relevant to
String.prototype.trim for this API. -/
def isJsSpace (c : Char) : Bool :=
  c = ' ' ∨ c = '\t' ∨ c = '\n' ∨ c = '\r'

/-- Model of String.prototype.trim on a character list. -/
def jsTrim (cs : List Char) : List Char :=
  ((cs.dropWhile isJsSpace).reverse.dropWhile isJsSpace).reverse

/-- Model of parseInt for the non-negative decimal numerals this
endpoint receives: value of the maximal leading digit run, none (NaN)
when there is no leading digit. -/
def parseIntModel (cs : List Char) : Option Nat :=
  let ds := cs.takeWhile (fun c => c.isDigit)
  if ds.isEmpty then none else some (digitsVal ds)

/-- Model of processPagesToDelete (server.ts): split the request string
on commas and parse each trimmed field as an integer. -/
def processPagesToDelete (s : String) : List (Option Nat) :=
  (splitOnChar ',' s.data).map (fun t => parseIntModel (jsTrim t))

/-! ### Lemmas about deletePages -/

lemma keepFilter_nil {α : Type} : ∀ (offset : Nat) (pdf : List α),
    keepFilter [] offset pdf = pdf := by
  intro offset pdf
  induction pdf generalizing offset with
  | nil => rfl
  | cons a tl ih => simp [keepFilter, ih]

lemma keepFilter_cons_of_lt {α : Type} (p : Nat) (rest : List Nat) :
    ∀ (offset : Nat) (pdf : List α), p < offset →
    keepFilter (p :: rest) offset pdf = keepFilter rest offset pdf := by
  intro offset pdf
  induction pdf generalizing offset with
  | nil => intro _; rfl
  | cons a tl ih =>
    intro h
    have hne : ¬ offset = p := by omega
    simp only [keepFilter, List.mem_cons, hne, false_or]
    rw [ih (offset + 1) (by omega)]

lemma removeAt_length {α : Type} : ∀ (l : List α) (i : Nat), i < l.length →
    (removeAt l i).length + 1 = l.length := by
  intro l
  induction l with
  | nil => intro i h; simp at h
  | cons a tl ih =>
    intro i h
    cases i with
    | zero => rfl
    | succ n =>
      have hn : n < tl.length := by simp at h; omega
      have := ih n hn
      simp only [removeAt, List.length_cons]
      omega

lemma keepFilter_erase {α : Type} (p : Nat) (rest : List Nat) (hrest : ∀ q ∈ rest, p < q) :
    ∀ (pdf : List α) (offset : Nat), offset ≤ p → p - offset < pdf.length →
    keepFilter (p :: rest) offset pdf = keepFilter rest (offset + 1) (removeAt pdf (p - offset)) := by
  intro pdf
  induction pdf with
  | nil => intro offset _ h; simp at h
  | cons a tl ih =>
    intro offset hle hlt
    by_cases hop : offset = p
    · subst hop
      have h0 : offset - offset = 0 := by omega
      rw [h0]
      have e1 : keepFilter (offset :: rest) offset (a :: tl)
          = keepFilter (offset :: rest) (offset + 1) tl := by
        simp [keepFilter]
      rw [e1, keepFilter_cons_of_lt offset rest (offset + 1) tl (by omega)]
      rfl
    · have hlt2 : offset < p := lt_of_le_of_ne hle hop
      have hpm : p - offset = (p - (offset + 1)) + 1 := by omega
      have hno : offset ∉ p :: rest := by
        intro hmem
        rcases List.mem_cons.mp hmem with h | h
        · omega
        · exact absurd (hrest _ h) (by omega)
      have hno2 : offset + 1 ∉ rest := by
        intro hmem
        exact absurd (hrest _ hmem) (by omega)
      have e1 : keepFilter (p :: rest) offset (a :: tl)
          = a :: keepFilter (p :: rest) (offset + 1) tl := by
        simp [keepFilter, hno]
      have e2 : removeAt (a :: tl) (p - offset) = a :: removeAt tl (p - (offset + 1)) := by
        rw [hpm]; rfl
      have e3 : keepFilter rest (offset + 1) (a :: removeAt tl (p - (offset + 1)))
          = a :: keepFilter rest (offset + 1 + 1) (removeAt tl (p - (offset + 1))) := by
        simp [keepFilter, hno2]
      rw [e1, e2, e3]
      congr 1
      exact ih (offset + 1) (by omega) (by simp at hlt; omega)

lemma deletePagesAux_eq {α : Type} : ∀ (pages : List Nat) (offset : Nat) (pdf : List α),
    List.Pairwise (· < ·) pages →
    (∀ p ∈ pages, offset ≤ p ∧ p < pdf.length + offset) →
    deletePagesAux pages offset pdf = some (keepFilter pages offset pdf) := by
  intro pages
  induction pages with
  | nil =>
    intro offset pdf _ _
    simp [deletePagesAux, keepFilter_nil]
  | cons p rest ih =>
    intro offset pdf hpw hbound
    have hp := hbound p (List.mem_cons_self p rest)
    have hcond : offset ≤ p ∧ p - offset < pdf.length := ⟨hp.1, by omega⟩
    have hrest : ∀ q ∈ rest, p < q := (List.pairwise_cons.mp hpw).1
    have hlen := removeAt_length pdf (p - offset) hcond.2
    have ihres := ih (offset + 1) (removeAt pdf (p - offset)) (List.pairwise_cons.mp hpw).2 ?_
    · rw [show deletePagesAux (p :: rest) offset pdf
          = deletePagesAux rest (offset + 1) (removeAt pdf (p - offset)) from by
        simp [deletePagesAux, hcond]]
      rw [ihres, keepFilter_erase p rest hrest pdf offset hcond.1 hcond.2]
    · intro q hq
      have hq2 := hbound q (List.mem_cons_of_mem p hq)
      have hq3 := hrest q hq
      constructor
      · omega
      · omega

lemma keepFilter_eq_withPositions {α : Type} (pages : List Nat) :
    ∀ (pdf : List α) (offset : Nat),
    keepFilter pages offset pdf
      = ((withPositions offset pdf).filter (fun x => !(decide (x.1 ∈ pages)))).map Prod.snd := by
  intro pdf
  induction pdf with
  | nil => intro offset; rfl
  | cons a tl ih =>
    intro offset
    by_cases h : offset ∈ pages
    · simp [keepFilter, withPositions, h, ih]
    · simp [keepFilter, withPositions, h, ih]

lemma deletePages_sorted {α : Type} (pdf : List α) (pages : List Nat)
    (hsort : List.Pairwise (· < ·) pages)
    (hrange : ∀ p ∈ pages, 1 ≤ p ∧ p ≤ pdf.length) :
    deletePages pdf pages = some (removeListedPages pdf pages) := by
  have h := deletePagesAux_eq pages 1 pdf hsort ?_
  · rw [deletePages, h, keepFilter_eq_withPositions]
    rfl
  · intro p hp
    have := hrange p hp
    omega

/-! ### Lemmas about page-list parsing -/

lemma splitOnChar_no_sep (sep : Char) : ∀ (t : List Char), sep ∉ t →
    splitOnChar sep t = [t] := by
  intro t
  induction t with
  | nil => intro _; rfl
  | cons c cs ih =>
    intro h
    have hc : ¬ c = sep := by
      intro e
      exact h (by simp [e])
    have hrec : splitOnChar sep cs = [cs] := ih (fun hm => h (List.mem_cons_of_mem _ hm))
    simp [splitOnChar, hc, hrec]

lemma splitOnChar_append (sep : Char) : ∀ (t cs : List Char), sep ∉ t →
    splitOnChar sep (t ++ sep :: cs) = t :: splitOnChar sep cs := by
  intro t
  induction t with
  | nil => intro cs _; simp [splitOnChar]
  | cons c t2 ih =>
    intro cs h
    have hc : ¬ c = sep := by
      intro e
      exact h (by simp [e])
    have hrec := ih cs (fun hm => h (List.mem_cons_of_mem _ hm))
    simp [splitOnChar, hc, hrec]

lemma splitOnChar_join (sep : Char) : ∀ (ts : List (List Char)), ts ≠ [] →
    (∀ t ∈ ts, sep ∉ t) → splitOnChar sep (joinChar sep ts) = ts := by
  intro ts
  induction ts with
  | nil => intro h _; exact absurd rfl h
  | cons t ts2 ih =>
    intro _ hall
    cases ts2 with
    | nil => exact splitOnChar_no_sep sep t (hall t (by simp))
    | cons u us =>
      have hj : joinChar sep (t :: u :: us) = t ++ sep :: joinChar sep (u :: us) := rfl
      rw [hj, splitOnChar_append sep t _ (hall t (by simp))]
      rw [ih (by simp) (fun v hv => hall v (List.mem_cons_of_mem _ hv))]

lemma not_space_of_digit (c : Char) (h : c.isDigit = true) : isJsSpace c = false := by
  unfold isJsSpace
  simp only [decide_eq_false_iff_not]
  intro hor
  rcases hor with h1 | h1 | h1 | h1 <;> subst h1 <;> exact absurd h (by decide)

lemma dropWhile_eq_self_of_all {α : Type} (f : α → Bool) (l : List α)
    (h : ∀ c ∈ l, f c = false) : l.dropWhile f = l := by
  cases l with
  | nil => rfl
  | cons c cs => simp [List.dropWhile_cons, h c (by simp)]

lemma jsTrim_eq_self (t : List Char) (h : ∀ c ∈ t, isJsSpace c = false) : jsTrim t = t := by
  unfold jsTrim
  rw [dropWhile_eq_self_of_all _ _ h,
      dropWhile_eq_self_of_all _ _ (fun c hc => h c (List.mem_reverse.mp hc)),
      List.reverse_reverse]

lemma takeWhile_eq_self_of_all {α : Type} (f : α → Bool) : ∀ (l : List α),
    (∀ c ∈ l, f c = true) → l.takeWhile f = l := by
  intro l
  induction l with
  | nil => intro _; rfl
  | cons c cs ih =>
    intro h
    simp only [List.takeWhile_cons, h c (by simp), if_true]
    rw [ih (fun x hx => h x (by simp [hx]))]

lemma parseIntModel_digits (t : List Char) (hne : t ≠ [])
    (h : ∀ c ∈ t, c.isDigit = true) :
    parseIntModel (jsTrim t) = some (digitsVal t) := by
  rw [jsTrim_eq_self t (fun c hc => not_space_of_digit c (h c hc))]
  unfold parseIntModel
  rw [takeWhile_eq_self_of_all _ t h]
  cases t with
  | nil => exact absurd rfl hne
  | cons c cs => rfl

lemma map_parse_digits (tokens : List (List Char))
    (htok : ∀ t ∈ tokens, t ≠ [] ∧ ∀ c ∈ t, c.isDigit = true) :
    tokens.map (fun t => parseIntModel (jsTrim t))
      = tokens.map (fun t => some (digitsVal t)) := by
  induction tokens with
  | nil => rfl
  | cons t ts ih =>
    simp only [List.map_cons, List.cons.injEq]
    exact ⟨parseIntModel_digits t (htok t (by simp)).1 (htok t (by simp)).2,
           ih (fun v hv => htok v (List.mem_cons_of_mem _ hv))⟩

lemma processPagesToDelete_join (tokens : List (List Char)) (hne : tokens ≠ [])
    (htok : ∀ t ∈ tokens, t ≠ [] ∧ ∀ c ∈ t, c.isDigit = true) :
    processPagesToDelete (String.mk (joinChar ',' tokens))
      = tokens.map (fun t => some (digitsVal t)) := by
  unfold processPagesToDelete
  have hdata : (String.mk (joinChar ',' tokens)).data = joinChar ',' tokens := rfl
  rw [hdata, splitOnChar_join ',' tokens hne ?_]
  · exact map_parse_digits tokens htok
  · intro t ht hc
    exact absurd ((htok t ht).2 ',' hc) (by decide)

/-! ## Local JSON storage (hnsw-store.ts and saveNotesLocally) -/

/-- Paper record persisted by saveToLocalStorage, with the fields in the
order the source builds the object: paper text, name, url, notes and
creation timestamp. -/
structure PaperRecord where
  paper : String
  name : String
  url : String
  notes : List ArxivPaperNote
  dateCreated : String
deriving DecidableEq, Repr

/-- One element of the JSON array stored in a data.json file: a
singleton object whose sole own property is the paper URL. -/
structure PaperEntry where
  key : String
  record : PaperRecord
deriving DecidableEq, Repr

/-- Build the singleton entry saveToLocalStorage writes for a paper. -/
def mkPaperEntry (docs : List Document) (url name : String)
    (notes : List ArxivPaperNote) (now : String) : PaperEntry :=
  ⟨url, ⟨formatDocumentsAsString docs, name, url, notes, now⟩⟩

/-- Model of saveToLocalStorage (hnsw-store.ts) acting on the content of
the storage file: create a one-entry array when the file is missing,
append a new entry when no existing entry is keyed by the url, leave
the array alone when one is, and fall through without writing when the
file exists but is empty. -/
def saveToLocalStorage (st : FileState (List PaperEntry)) (docs : List Document)
    (url name : String) (notes : List ArxivPaperNote) (now : String) :
    FileState (List PaperEntry) :=
  match st with
  | .missing => .stored [mkPaperEntry docs url name notes now]
  | .empty => .empty
  | .stored entries =>
    if entries.any (fun e => e.key == url) then .stored entries
    else .stored (entries ++ [mkPaperEntry docs url name notes now])

/-- Model of the generated_notes/notes.json object: an association list
from paper URL to its notes (JavaScript object keys are unique). -/
abbrev NotesObj := List (String × List ArxivPaperNote)

/-- Model of saveNotesLocally (notes/index.ts): return without writing
when notes.json is missing; when the file is empty write an object with
just the new url; otherwise, if the url is already a key do nothing,
and if it is not, write the fresh notesObj, which holds only the new
url (the parsed copy is never merged back). -/
def saveNotesLocally (st : FileState NotesObj) (paperUrl : String)
    (notes : List ArxivPaperNote) : FileState NotesObj :=
  match st with
  | .missing => .missing
  | .empty => .stored [(paperUrl, notes)]
  | .stored obj =>
    if obj.any (fun e => e.1 == paperUrl) then .stored obj
    else .stored [(paperUrl, notes)]

/-- QA record persisted by saveQAToLocalStorage. -/
structure QAEntry where
  question : String
  answer : String
  context : String
  followupQuestions : List String
  dateCreated : String
deriving DecidableEq, Repr

/-- Model of saveQAToLocalStorage (hnsw-store.ts): create a one-entry
array when the file is missing, otherwise parse and append (parsing an
empty file throws, which surfaces as an error to the caller). -/
def saveQAToLocalStorage (st : FileState (List QAEntry)) (question answer context : String)
    (followupQuestions : List String) (now : String) :
    Except String (FileState (List QAEntry)) :=
  match st with
  | .missing => .ok (.stored [⟨question, answer, context, followupQuestions, now⟩])
  | .empty => .error "Unexpected end of JSON input"
  | .stored l => .ok (.stored (l ++ [⟨question, answer, context, followupQuestions, now⟩]))

/-- Model of the stored-paper retrieval pattern shared by
getPaperFromLocalStorage, qaOnPaperV2 and the mainV2 notes cache: probe
existsSync, JSON.parse the content (throwing on an empty file), check
Array.isArray and look for an element owning the url key. -/
def retrieveStored (st : FileState (List PaperEntry)) (url : String) :
    Except String (Option PaperRecord) :=
  match st with
  | .missing => .ok none
  | .empty => .error "Unexpected end of JSON input"
  | .stored entries =>
    match entries.find? (fun e => e.key == url) with
    | some e => .ok (some e.record)
    | none => .ok none

/-- Keys of a data.json file state, used to express uniqueness of the
source URL in the store. -/
def storageKeys (st : FileState (List PaperEntry)) : List String :=
  match st with
  | .stored entries => entries.map (fun e => e.key)
  | _ => []

/-- Keys of the notes.json file state. -/
def notesKeys (st : FileState NotesObj) : List String :=
  match st with
  | .stored obj => obj.map (fun e => e.1)
  | _ => []

/-! ## Supabase database model (database.ts) -/

/-- Row of the arxiv_papers table; the notes column is nullable. -/
structure PaperRow where
  paper : String
  arxiv_url : String
  notes : Option (List ArxivPaperNote)
  name : String
deriving DecidableEq, Repr

/-- Row of the arxiv_question_answering table. -/
structure QARow where
  question : String
  answer : String
  context : String
  followup_questions : List String
deriving DecidableEq, Repr

/-- State of the two Supabase tables the claims touch. -/
structure SupaState where
  papers : List PaperRow
  qas : List QARow
deriving DecidableEq, Repr

/-- Rows of the papers table whose arxiv_url column equals the url. -/
def selectPapersByUrl (st : SupaState) (url : String) : List PaperRow :=
  st.papers.filter (fun r => r.arxiv_url == url)

/-- Model of SupabaseDatabase.getPaper: dbError models the query itself
reporting an error, in which case the source returns null; a successful
query with no matching row yields the empty array, so the field access
data[0].name raises a TypeError that the catch logs and rethrows. -/
def getPaper (st : SupaState) (dbError : Bool) (url : String) :
    Except String (Option PaperRow) :=
  if dbError then .ok none
  else
    match (selectPapersByUrl st url).head? with
    | some row => .ok (some row)
    | none => .error "Cannot read properties of undefined"

/-- Model of SupabaseDatabase.rtrnExistingQa: first row whose question
column equals the question text exactly. -/
def rtrnExistingQa (st : SupaState) (question : String) : Option QARow :=
  (st.qas.filter (fun r => r.question == question)).head?

/-- Model of SupabaseDatabase.saveQa: insert one QA row. -/
def saveQa (st : SupaState) (question answer context : String)
    (followups : List String) : SupaState :=
  { st with qas := st.qas ++ [⟨question, answer, context, followups⟩] }

/-- Model of SupabaseDatabase.addPaper: insert one paper row. -/
def addPaperRow (st : SupaState) (paper url name : String)
    (notes : List ArxivPaperNote) : SupaState :=
  { st with papers := st.papers ++ [⟨paper, url, some notes, name⟩] }

/-! ## Model chain, environment and call accounting -/

/-- Parsed answer object produced by the questionAnswer tool schema. -/
structure AnswerObj where
  answer : String
  followupQuestions : List String
deriving DecidableEq, Repr

/-- Return type of the QA model calls. -/
abbrev QAResponse := List AnswerObj

/-- Counts of external calls made during one request: model chain
invocations and vector retrieval invocations. -/
structure Calls where
  model : Nat
  retriever : Nat
deriving DecidableEq, Repr

/-- Oracles for every external collaborator reached by the code paths
under study: the chat model chains, the embeddings retrievers, the pdf
fetch and conversion, and the clock. -/
structure Env where
  dbError : Bool
  qaThrows : Bool
  qaChain : String → String → String → QAResponse
  simDocs : List Document
  retrieverThrows : Bool
  relDocs : List Document
  hnswLoadFails : Bool
  hnswFromDocsFails : Bool
  fetchedPdf : Option (List String)
  convertDocs : List String → Option (List Document)
  notesThrows : Bool
  notesChain : String → List ArxivPaperNote
  now : String

/-- Notes formatted the way the QA prompts receive them: note texts
joined by newlines. -/
def notesAsString (notes : List ArxivPaperNote) : String :=
  joinWith "\n" (notes.map (fun n => n.note))

/-- Model of qaModel (qa/index.ts): invoke the prompt-model-parser chain
on the question, the formatted notes and the formatted documents; a
failure anywhere is logged and rethrown as a QA failure. -/
def qaModel (env : Env) (question : String) (documents : List Document)
    (notes : List ArxivPaperNote) : Except String QAResponse :=
  if env.qaThrows then .error "QA failed"
  else .ok (env.qaChain question (notesAsString notes) (formatDocumentsAsString documents))

/-- Model of qaModelWithHNSW (qa/index.ts): same chain, but a failure is
swallowed and replaced by the generic failure marker instead of being
rethrown. -/
def qaModelWithHNSW (env : Env) (question : String) (documents : List Document)
    (notes : List ArxivPaperNote) : QAResponse :=
  if env.qaThrows then [⟨"Error", ["Error"]⟩]
  else env.qaChain question (notesAsString notes) (formatDocumentsAsString documents)

/-! ## qaOnPaper and main (Supabase pipeline) -/

/-- Shape of a successful qaOnPaper result: the early return for an
existing question is a single object, the fresh path returns the parsed
response array. -/
inductive QAOutcome where
  | stored (answer : String) (followupQuestions : List String)
  | fresh (res : QAResponse)
deriving DecidableEq, Repr

/-- Model of qaOnPaper (qa/index.ts): return the stored answer when the
exact question text already has a QA row; otherwise fetch the paper,
run a similarity search and the model chain, and persist each returned
answer; every failure is rethrown with the generic message. -/
def qaOnPaper (question paperUrl : String) (st : SupaState) (env : Env) :
    Except String QAOutcome × SupaState × Calls :=
  match rtrnExistingQa st question with
  | some qa => (.ok (.stored qa.answer qa.followup_questions), st, ⟨0, 0⟩)
  | none =>
    match getPaper st env.dbError paperUrl with
    | .error _ => (.error "AI minus the braids", st, ⟨0, 0⟩)
    | .ok none => (.error "AI minus the braids", st, ⟨0, 0⟩)
    | .ok (some row) =>
      match row.notes with
      | none => (.error "AI minus the braids", st, ⟨0, 0⟩)
      | some notes =>
        match qaModel env question env.simDocs notes with
        | .error _ => (.error "AI minus the braids", st, ⟨1, 1⟩)
        | .ok res =>
          let st2 := res.foldl (fun s r =>
            saveQa s question r.answer (formatDocumentsAsString env.simDocs)
              r.followupQuestions) st
          (.ok (.fresh res), st2, ⟨1, 1⟩)

/-- Model of main (notes/index.ts): validate the url ending, return the
stored notes when getPaper finds the row (the notes column may be
null), and otherwise run the full ingestion pipeline and insert the
paper row; every failure is rethrown with the generic message. -/
def main (paperUrl paperName : String) (pagesToDelete : List Nat)
    (st : SupaState) (env : Env) :
    Except String (Option (List ArxivPaperNote)) × SupaState :=
  if strEndsWith paperUrl ".pdf" = false then (.error "AI minus the braids", st)
  else
    match getPaper st env.dbError paperUrl with
    | .error _ => (.error "AI minus the braids", st)
    | .ok (some row) => (.ok row.notes, st)
    | .ok none =>
      match env.fetchedPdf with
      | none => (.error "AI minus the braids", st)
      | some pdf0 =>
        let loaded : Option (List String) :=
          if pagesToDelete.isEmpty then some pdf0
          else deletePages pdf0 pagesToDelete
        match loaded with
        | none => (.error "AI minus the braids", st)
        | some pdf =>
          match env.convertDocs pdf with
          | none => (.error "AI minus the braids", st)
          | some documents =>
            if env.notesThrows then (.error "AI minus the braids", st)
            else
              let notes := env.notesChain (formatDocumentsAsString documents)
              (.ok (some notes),
               addPaperRow st (formatDocumentsAsString documents) paperUrl paperName notes)

/-! ## Local file-system state and the V2 pipeline -/

/-- State of the directories and JSON files the V2 pipeline touches;
separate maps hold the distinct path namespaces. -/
structure FS where
  dirExists : String → Bool
  pathExists : String → Bool
  rawFiles : String → List String
  dataFiles : String → FileState (List PaperEntry)
  qaFiles : String → FileState (List QAEntry)
  notesFiles : String → FileState (List PaperEntry)

/-- Point update of a boolean path predicate, modelling mkdirSync. -/
def setBool (f : String → Bool) (k : String) : String → Bool :=
  fun p => if p = k then true else f p

/-- Point update of a path-indexed map, modelling writeFileSync. -/
def setFile {β : Type} (f : String → β) (k : String) (v : β) : String → β :=
  fun p => if p = k then v else f p

/-- Result of qaOnPaperV2 when it does not throw: the parsed response
array or the null returned by the catch block. -/
inductive V2Outcome where
  | answered (res : QAResponse)
  | nullResult
deriving DecidableEq, Repr

/-- Model of qaOnPaperV2 (qa/index.ts): require the vector store
directory, retrieve the stored notes from local storage (throwing when
they are absent), then inside the try block load the store, fetch
relevant documents, run the HNSW model chain and append the QA record
unless the response is the failure marker; any throw inside the try
yields null. -/
def qaOnPaperV2 (question paperUrl : String) (fs : FS) (env : Env) :
    Except String V2Outcome × FS × Calls :=
  let dir := "vector_store/" ++ basename paperUrl
  if fs.dirExists dir = false then (.error "No vector store directory found", fs, ⟨0, 0⟩)
  else
    let storedPaperPath := "local_storage/" ++ basename paperUrl ++ "/data.json"
    match retrieveStored (fs.dataFiles storedPaperPath) paperUrl with
    | .error e => (.error e, fs, ⟨0, 0⟩)
    | .ok none => (.error "No text found", fs, ⟨0, 0⟩)
    | .ok (some rec) =>
      if env.hnswLoadFails then (.ok .nullResult, fs, ⟨0, 0⟩)
      else if env.retrieverThrows then (.ok .nullResult, fs, ⟨0, 1⟩)
      else
        let documents := env.relDocs
        let res := qaModelWithHNSW env question documents rec.notes
        match res.head? with
        | none => (.ok .nullResult, fs, ⟨1, 1⟩)
        | some first =>
          if first.answer == "Error" then (.ok (.answered res), fs, ⟨1, 1⟩)
          else
            let qaPath := "local_storage/" ++ basename paperUrl ++ "/qa_data.json"
            match saveQAToLocalStorage (fs.qaFiles qaPath) question first.answer
                (formatDocumentsAsString documents) first.followupQuestions env.now with
            | .error _ => (.ok .nullResult, fs, ⟨1, 1⟩)
            | .ok newFile =>
              (.ok (.answered res),
               { fs with qaFiles := setFile fs.qaFiles qaPath newFile }, ⟨1, 1⟩)

/-- Result of mainV2 when it does not throw. -/
inductive MainV2Outcome where
  | notes (ns : List ArxivPaperNote)
  | nullResult
deriving DecidableEq, Repr

/-- Characters the regex wildcard dot refuses to match: the JavaScript
line terminators. -/
def isLineTerm (c : Char) : Bool :=
  c = '\n' ∨ c = '\r' ∨ c = '\u2028' ∨ c = '\u2029'

/-- Prefix matcher for the second lookahead alternative of the mainV2
url test.  The regex is built from a template literal, in which the
escape before each dot collapses, so the compiled alternative is 127
followed by a wildcard, 0, a wildcard, 0, a wildcard, 1: any host
whose first nine characters fit that shape (not only the literal
127.0.0.1) is refused. -/
def matchesHost127 (cs : List Char) : Bool :=
  match cs with
  | c0 :: c1 :: c2 :: c3 :: c4 :: c5 :: c6 :: c7 :: c8 :: _ =>
    c0 = '1' && c1 = '2' && c2 = '7' && !isLineTerm c3 && c4 = '0' &&
      !isLineTerm c5 && c6 = '0' && !isLineTerm c7 && c8 = '1'
  | _ => false

/-- Tail matcher of the url regular expression in mainV2.  The escape
of the dot collapses in the template literal, so the compiled tail is
a lazy wildcard run, one more wildcard and the literal letters pdf at
the end: the part after the scheme must end in pdf, have at least one
character before that ending, and every character before the final pdf
must not be a line terminator (wildcards do not match those). -/
def restMatches (rest : String) : Bool :=
  strEndsWith rest "pdf" && decide (4 ≤ rest.data.length) &&
    (rest.data.take (rest.data.length - 3)).all (fun c => !isLineTerm c)

/-- Model of the mainV2 url test, the regex compiled from the template
literal with its dot escapes collapsed to wildcards: an http or https
scheme, a negative lookahead refusing hosts starting with localhost or
with the 127-wildcard shape, then a wildcard run ending in pdf. -/
def jsIsPdfUrl (s : String) : Bool :=
  if strStartsWith s "http://" then
    let rest := strDrop s 7
    !(strStartsWith rest "localhost" || matchesHost127 rest.data) && restMatches rest
  else if strStartsWith s "https://" then
    let rest := strDrop s 8
    !(strStartsWith rest "localhost" || matchesHost127 rest.data) && restMatches rest
  else false

/-- Spot checks of the collapsed-escape regex semantics: the lookahead
refuses the literal loopback host and any host of the 127-wildcard
shape such as 127a0b0c1, the tail wildcard accepts endings such as
xpdf, an ordinary pdf url passes, and localhost is refused. -/
lemma jsIsPdfUrl_wildcard_examples :
    jsIsPdfUrl "http://127.0.0.1/x.pdf" = false
    ∧ jsIsPdfUrl "http://127a0b0c1/x.pdf" = false
    ∧ jsIsPdfUrl "http://example.com/xpdf" = true
    ∧ jsIsPdfUrl "https://example.com/p.pdf" = true
    ∧ jsIsPdfUrl "http://localhost/p.pdf" = false := by
  refine ⟨by decide, by decide, by decide, by decide, by decide⟩

/-- Try block of mainV2 (notes/index.ts): load the pdf from the url or
the local path, delete pages, convert to documents, build the HNSW
store, save the vector store when its directory is new, generate notes
and persist the paper through addPaper; any throw yields null.  When
HNSWLib.fromDocuments fails the database is null, so the first null
dereference throws after the vector store directory was already
created. -/
def mainV2Try (paperUrl paperName : String) (pagesToDelete : List Nat)
    (isPdfUrl isLocalPdf : Bool) (fs : FS) (env : Env) :
    MainV2Outcome × FS :=
  let fetchStep : Except Unit (Option (List String)) :=
    if isPdfUrl then
      match env.fetchedPdf with
      | none => .error ()
      | some b => .ok (some b)
    else .ok none
  match fetchStep with
  | .error _ => (.nullResult, fs)
  | .ok b0 =>
    let b1 : Option (List String) := if isLocalPdf then some (fs.rawFiles paperUrl) else b0
    let delStep : Except Unit (Option (List String)) :=
      if pagesToDelete.isEmpty then .ok b1
      else
        match b1 with
        | none => .error ()
        | some b =>
          match deletePages b pagesToDelete with
          | none => .error ()
          | some b2 => .ok (some b2)
    match delStep with
    | .error _ => (.nullResult, fs)
    | .ok none => (.nullResult, fs)
    | .ok (some pdf) =>
      match env.convertDocs pdf with
      | none => (.nullResult, fs)
      | some documents =>
        let dir := "vector_store/" ++ basename paperUrl
        if env.hnswFromDocsFails then
          if fs.dirExists dir then (.nullResult, fs)
          else (.nullResult, { fs with dirExists := setBool fs.dirExists dir })
        else
          let fs1 := if fs.dirExists dir then fs
                     else { fs with dirExists := setBool fs.dirExists dir }
          if env.notesThrows then (.nullResult, fs1)
          else
            let notes := env.notesChain (formatDocumentsAsString documents)
            let lsDir := "local_storage/" ++ basename paperUrl
            let fs2 := if fs1.dirExists lsDir then fs1
                       else { fs1 with dirExists := setBool fs1.dirExists lsDir }
            let storagePath := "generated_notes/" ++ basename paperUrl ++ "/data.json"
            let newNotesFile := saveToLocalStorage (fs2.notesFiles storagePath) documents
              paperUrl paperName notes env.now
            let fs3 := { fs2 with notesFiles := setFile fs2.notesFiles storagePath newNotesFile }
            (.notes notes, fs3)

/-- Part of mainV2 after url validation: the generated-notes cache
check, then the try block (whose result is always a non-throwing
return, since the catch swallows every failure into null). -/
def mainV2Body (paperUrl paperName : String) (pagesToDelete : List Nat)
    (isPdfUrl isLocalPdf : Bool) (fs : FS) (env : Env) :
    Except String MainV2Outcome × FS :=
  let notesPath := "generated_notes/" ++ basename paperUrl ++ "/data.json"
  match retrieveStored (fs.notesFiles notesPath) paperUrl with
  | .error e => (.error e, fs)
  | .ok (some rec) => (.ok (.notes rec.notes), fs)
  | .ok none =>
    let r := mainV2Try paperUrl paperName pagesToDelete isPdfUrl isLocalPdf fs env
    (.ok r.1, r.2)

/-- Model of mainV2 (notes/index.ts): throw unless the url passes the
pdf-url regular expression or names an existing local file, and ends in
.pdf; then run the cached-notes check and the try block. -/
def mainV2 (paperUrl paperName : String) (pagesToDelete : List Nat) (fs : FS) (env : Env) :
    Except String MainV2Outcome × FS :=
  let isPdfUrl := jsIsPdfUrl paperUrl
  let isLocalPdf := fs.pathExists paperUrl
  if (!isPdfUrl && !isLocalPdf) || !(strEndsWith paperUrl ".pdf") then
    (.error "Invalid PDF or file path.", fs)
  else mainV2Body paperUrl paperName pagesToDelete isPdfUrl isLocalPdf fs env

/-! ## Output parsers (notes/prompt.ts and qa/prompt.ts) -/

/-- Function payload of a tool call; the arguments field stands for the
JSON.parse of the arguments string. -/
structure ToolCallFunction (Args : Type) where
  name : String
  arguments : Args
deriving DecidableEq, Repr

/-- One tool call of a model response. -/
structure ToolCall (Args : Type) where
  function : ToolCallFunction Args
deriving DecidableEq, Repr

/-- The additional_kwargs of a message chunk; tool_calls is absent when
the model returned no tool call. -/
structure AdditionalKwargs (Args : Type) where
  tool_calls : Option (List (ToolCall Args))
deriving DecidableEq, Repr

/-- Model of the langchain BaseMessageChunk, restricted to the field
the parsers read. -/
structure BaseMessageChunk (Args : Type) where
  additional_kwargs : AdditionalKwargs Args
deriving DecidableEq, Repr

/-- Arguments of a formatNotes tool call. -/
structure NotesArgs where
  notes : List ArxivPaperNote
deriving DecidableEq, Repr

/-- Model of outputParser (notes/prompt.ts): throw when tool_calls is
absent, otherwise take the notes array of each call and flatten the
results in call order. -/
def outputParser (output : BaseMessageChunk NotesArgs) :
    Except String (List ArxivPaperNote) :=
  match output.additional_kwargs.tool_calls with
  | none => .error "Missing tool_calls in notes output"
  | some calls => .ok ((calls.map (fun c => c.function.arguments.notes)).flatten)

/-- Model of answerOutputParser (qa/prompt.ts): throw when tool_calls
is absent, otherwise parse each call into its answer object; the
trailing flat() is the identity on an array of objects. -/
def answerOutputParser (output : BaseMessageChunk AnswerObj) :
    Except String QAResponse :=
  match output.additional_kwargs.tool_calls with
  | none => .error "Missing tool_calls in notes output"
  | some calls => .ok (calls.map (fun c => c.function.arguments))

/-! ## Shared lemmas about the storage operations -/

lemma any_key_eq_false {entries : List PaperEntry} {url : String}
    (h : entries.any (fun e => e.key == url) = false) :
    url ∉ entries.map (fun e => e.key) := by
  intro hmem
  rcases List.mem_map.mp hmem with ⟨e, he, hk⟩
  have : entries.any (fun e => e.key == url) = true :=
    List.any_eq_true.mpr ⟨e, he, by simp [hk]⟩
  rw [this] at h
  cases h

lemma storageKeys_nodup_save (st : FileState (List PaperEntry)) (docs : List Document)
    (url name now : String) (notes : List ArxivPaperNote)
    (hnd : (storageKeys st).Nodup) :
    (storageKeys (saveToLocalStorage st docs url name notes now)).Nodup := by
  match st with
  | .missing => simp [saveToLocalStorage, storageKeys, mkPaperEntry]
  | .empty => simp [saveToLocalStorage, storageKeys]
  | .stored entries =>
    by_cases hany : entries.any (fun e => e.key == url) = true
    · simpa [saveToLocalStorage, hany, storageKeys] using hnd
    · have hfalse : entries.any (fun e => e.key == url) = false := by
        revert hany
        cases entries.any (fun e => e.key == url) <;> simp
      have hnotin := any_key_eq_false hfalse
      simp only [saveToLocalStorage, hfalse, storageKeys] at hnd ⊢
      rw [if_neg (by simp [hfalse])]
      simp only [storageKeys, List.map_append, List.map_cons, List.map_nil, mkPaperEntry]
      rw [List.nodup_append]
      refine ⟨hnd, List.nodup_singleton url, ?_⟩
      intro a ha hb
      simp only [List.mem_singleton] at hb
      subst hb
      exact hnotin ha

lemma notesKeys_nodup_save (st : FileState NotesObj) (paperUrl : String)
    (notes : List ArxivPaperNote) (hnd : (notesKeys st).Nodup) :
    (notesKeys (saveNotesLocally st paperUrl notes)).Nodup := by
  match st with
  | .missing => simp [saveNotesLocally, notesKeys]
  | .empty => simp [saveNotesLocally, notesKeys]
  | .stored obj =>
    by_cases hany : obj.any (fun e => e.1 == paperUrl) = true
    · simpa [saveNotesLocally, hany, notesKeys] using hnd
    · have hfalse : obj.any (fun e => e.1 == paperUrl) = false := by
        revert hany
        cases obj.any (fun e => e.1 == paperUrl) <;> simp
      simp [saveNotesLocally, hfalse, notesKeys]

lemma retrieveStored_error_msg (st : FileState (List PaperEntry)) (url e : String)
    (h : retrieveStored st url = .error e) : e = "Unexpected end of JSON input" := by
  match st with
  | .missing => simp [retrieveStored] at h
  | .empty =>
    simp only [retrieveStored, Except.error.injEq] at h
    exact h.symm
  | .stored entries =>
    simp only [retrieveStored] at h
    cases hf : entries.find? (fun x => x.key == url) with
    | some x => rw [hf] at h; cases h
    | none => rw [hf] at h; cases h

/-! ## Concrete fixtures for witnesses and counterexamples -/

/-- A note used by the concrete test states. -/
def noteW : ArxivPaperNote := ⟨"a note", [1]⟩

/-- A second note used by the concrete test states. -/
def note2W : ArxivPaperNote := ⟨"second note", [2]⟩

/-- A concrete document list. -/
def docsW : List Document := [⟨"chunk one"⟩, ⟨"chunk two"⟩]

/-- A concrete paper url; its basename is p.pdf. -/
def urlW : String := "https://example.com/p.pdf"

/-- A concrete stored paper record for urlW. -/
def recW : PaperRecord := ⟨"paper text", "Paper", urlW, [noteW], "2024-01-01T00:00:00.000Z"⟩

/-- A concrete QA record already persisted under the question text used
by the counterexample request. -/
def qaStoredW : QAEntry :=
  ⟨"what is it", "stored answer", "ctx", ["old follow up"], "2024-01-01T00:00:00.000Z"⟩

/-- Baseline oracle environment: every external call succeeds and the
model chain answers with a fixed fresh response. -/
def envW : Env where
  dbError := false
  qaThrows := false
  qaChain := fun _ _ _ => [⟨"fresh answer", ["follow up"]⟩]
  simDocs := docsW
  retrieverThrows := false
  relDocs := docsW
  hnswLoadFails := false
  hnswFromDocsFails := false
  fetchedPdf := some ["page one", "page two"]
  convertDocs := fun _ => some docsW
  notesThrows := false
  notesChain := fun _ => [noteW]
  now := "2024-01-01T00:00:00.000Z"

/-- Baseline file system: the vector store directory for urlW exists,
its local storage holds recW, and its QA storage already holds a record
for the question text "what is it". -/
def fsW : FS where
  dirExists := fun p => p == "vector_store/p.pdf"
  pathExists := fun _ => false
  rawFiles := fun _ => []
  dataFiles := fun p =>
    if p == "local_storage/p.pdf/data.json" then .stored [⟨urlW, recW⟩] else .missing
  qaFiles := fun p =>
    if p == "local_storage/p.pdf/qa_data.json" then .stored [qaStoredW] else .missing
  notesFiles := fun _ => .missing

/-- File system whose local storage data.json exists but is empty. -/
def fsEmptyData : FS :=
  { fsW with dataFiles := fun _ => .empty }

/-- A concrete Supabase state holding one QA row for the question text
"what is it" and no paper rows. -/
def stW : SupaState := ⟨[], [⟨"what is it", "stored answer", "ctx", ["old follow up"]⟩]⟩

/-! ## Claim C3 -/

/-- C3 counterexample: the pages 3 and 2 of a three-page document are
distinct and in range, yet listing them in the order 3,2 makes
deletePages remove pages 3 and 1 (the offset keeps growing while the
indices do not), so the result is not the document with exactly the
listed pages removed.  The parsing half behaves as claimed. -/
theorem c3_counterexample :
    processPagesToDelete "3,2" = [some 3, some 2]
    ∧ ([3, 2] : List Nat).Nodup
    ∧ (∀ p ∈ ([3, 2] : List Nat), 1 ≤ p ∧ p ≤ (["A", "B", "C"] : List String).length)
    ∧ deletePages (["A", "B", "C"] : List String) [3, 2] = some ["B"]
    ∧ removeListedPages (["A", "B", "C"] : List String) [3, 2] = ["A"]
    ∧ deletePages (["A", "B", "C"] : List String) [3, 2]
        ≠ some (removeListedPages (["A", "B", "C"] : List String) [3, 2]) := by
  refine ⟨by decide, by decide, by decide, by decide, by decide, by decide⟩

/-- C3 (amended): for every pdf and every comma-separated string of
decimal page numbers, processPagesToDelete parses the string into
exactly those integers in order; and when the listed numbers are
strictly increasing (rather than in any order) and in range,
deletePages returns the document with exactly the listed pages removed
and the remaining pages in their original order. -/
theorem c3_deletePages_parse_and_sorted {α : Type} (pdf : List α)
    (tokens : List (List Char)) (hne : tokens ≠ [])
    (htok : ∀ t ∈ tokens, t ≠ [] ∧ ∀ c ∈ t, c.isDigit = true)
    (hsort : List.Pairwise (· < ·) (tokens.map digitsVal))
    (hrange : ∀ p ∈ tokens.map digitsVal, 1 ≤ p ∧ p ≤ pdf.length) :
    processPagesToDelete (String.mk (joinChar ',' tokens))
        = tokens.map (fun t => some (digitsVal t))
    ∧ deletePages pdf (tokens.map digitsVal)
        = some (removeListedPages pdf (tokens.map digitsVal)) :=
  ⟨processPagesToDelete_join tokens hne htok,
   deletePages_sorted pdf (tokens.map digitsVal) hsort hrange⟩

/-- C3 witness: the amended theorem applied to a four-page document and
the request string 1,3. -/
theorem c3_deletePages_parse_and_sorted_witness :
    processPagesToDelete (String.mk (joinChar ',' [['1'], ['3']]))
        = [['1'], ['3']].map (fun t => some (digitsVal t))
    ∧ deletePages (["a", "b", "c", "d"] : List String) ([['1'], ['3']].map digitsVal)
        = some (removeListedPages (["a", "b", "c", "d"] : List String)
            ([['1'], ['3']].map digitsVal)) :=
  c3_deletePages_parse_and_sorted (["a", "b", "c", "d"] : List String) [['1'], ['3']]
    (by decide) (by decide) (by decide) (by decide)

/-! ## Claim C2 -/

/-- C2 counterexample: notes.json holds an entry for u1.pdf; saving
notes for the distinct url u2.pdf rewrites the file to an object that
holds only the u2.pdf entry, so the previously saved u1.pdf record is
not preserved. -/
theorem c2_counterexample :
    saveNotesLocally (.stored [("u1.pdf", [noteW])]) "u2.pdf" [note2W]
        = .stored [("u2.pdf", [note2W])]
    ∧ ("u1.pdf", [noteW]) ∉ ([("u2.pdf", [note2W])] : NotesObj) := by
  exact ⟨rfl, by decide⟩

/-- C2 (amended): saving a second paper through saveToLocalStorage
appends its entry and preserves every entry already in the storage
file; saveNotesLocally with a new url, however, overwrites notes.json
with an object holding only the new url, so earlier entries are
dropped rather than preserved. -/
theorem c2_save_preservation (entries : List PaperEntry) (obj : NotesObj)
    (docs : List Document) (url name now : String)
    (notes notes2 : List ArxivPaperNote)
    (hnew : entries.any (fun e => e.key == url) = false)
    (hnew2 : obj.any (fun e => e.1 == url) = false) :
    saveToLocalStorage (.stored entries) docs url name notes now
        = .stored (entries ++ [mkPaperEntry docs url name notes now])
    ∧ (∀ e ∈ entries, e ∈ entries ++ [mkPaperEntry docs url name notes now])
    ∧ saveNotesLocally (.stored obj) url notes2 = .stored [(url, notes2)] := by
  refine ⟨?_, ?_, ?_⟩
  · simp [saveToLocalStorage, hnew]
  · intro e he
    exact List.mem_append_left _ he
  · simp [saveNotesLocally, hnew2]

/-- C2 witness: the amended theorem applied to storage holding one
u1.pdf entry and a save for u2.pdf. -/
theorem c2_save_preservation_witness :
    saveToLocalStorage (.stored [⟨"u1.pdf", recW⟩]) docsW "u2.pdf" "N" [noteW] "t0"
        = .stored ([⟨"u1.pdf", recW⟩] ++ [mkPaperEntry docsW "u2.pdf" "N" [noteW] "t0"])
    ∧ saveNotesLocally (.stored [("u1.pdf", [noteW])]) "u2.pdf" [note2W]
        = .stored [("u2.pdf", [note2W])] := by
  have h := c2_save_preservation [⟨"u1.pdf", recW⟩] [("u1.pdf", [noteW])] docsW
    "u2.pdf" "N" "t0" [noteW] [note2W] (by decide) (by decide)
  exact ⟨h.1, h.2.2⟩

/-! ## Claim C9 -/

/-- C9: the local persistence helpers silently persist nothing in the
two edge cases: saveToLocalStorage on an existing empty storage file
writes nothing (the record is dropped), and saveNotesLocally returns
without creating notes.json when the file does not exist; neither case
raises. -/
theorem c9_silent_noop (docs : List Document) (url name now paperUrl : String)
    (notes notes2 : List ArxivPaperNote) :
    saveToLocalStorage .empty docs url name notes now = .empty
    ∧ saveNotesLocally .missing paperUrl notes2 = .missing :=
  ⟨rfl, rfl⟩

/-! ## Claim C7 -/

/-- C7: outputParser returns exactly the notes arrays of the tool calls
concatenated in call order (so a mocked two-call response yields the
two mocked notes arrays appended), answerOutputParser returns exactly
the parsed answer objects of the tool calls in order, and both parsers
throw when the output carries no tool_calls. -/
theorem c7_output_parsers :
    (∀ calls : List (ToolCall NotesArgs),
      outputParser ⟨⟨some calls⟩⟩
        = .ok ((calls.map (fun c => c.function.arguments.notes)).flatten))
    ∧ (∀ calls : List (ToolCall AnswerObj),
      answerOutputParser ⟨⟨some calls⟩⟩ = .ok (calls.map (fun c => c.function.arguments)))
    ∧ (∀ args1 args2 : NotesArgs,
      outputParser ⟨⟨some [⟨⟨"formatNotes", args1⟩⟩, ⟨⟨"formatNotes", args2⟩⟩]⟩⟩
        = .ok (args1.notes ++ args2.notes))
    ∧ outputParser (⟨⟨none⟩⟩ : BaseMessageChunk NotesArgs)
        = .error "Missing tool_calls in notes output"
    ∧ answerOutputParser (⟨⟨none⟩⟩ : BaseMessageChunk AnswerObj)
        = .error "Missing tool_calls in notes output" := by
  refine ⟨fun calls => rfl, fun calls => rfl, fun args1 args2 => ?_, rfl, rfl⟩
  simp [outputParser]

/-! ## Claim C1 -/

/-- C1 counterexample: the QA local storage already holds a record whose
question text equals the request exactly, yet qaOnPaperV2 still invokes
the model chain once and returns the fresh model answer, not the stored
one: the V2 path performs no existing-question lookup. -/
theorem c1_counterexample :
    fsW.qaFiles "local_storage/p.pdf/qa_data.json" = .stored [qaStoredW]
    ∧ qaStoredW.question = "what is it"
    ∧ (qaOnPaperV2 "what is it" urlW fsW envW).2.2 = ⟨1, 1⟩
    ∧ (qaOnPaperV2 "what is it" urlW fsW envW).1
        = .ok (.answered [⟨"fresh answer", ["follow up"]⟩])
    ∧ ("fresh answer" : String) ≠ "stored answer" := by
  refine ⟨rfl, rfl, rfl, rfl, by decide⟩

/-- C1 (amended): qaOnPaper returns the stored answer and follow-up
questions with zero model and retriever calls whenever the exact
question text has a persisted QA row, independently of the paper url;
the qaOnPaperV2 variant behind POST /qa performs no such lookup (see
the counterexample). -/
theorem c1_qaOnPaper_dedup (question paperUrl paperUrl2 : String)
    (st : SupaState) (env : Env) (qa : QARow)
    (h : rtrnExistingQa st question = some qa) :
    qaOnPaper question paperUrl st env
        = (.ok (.stored qa.answer qa.followup_questions), st, ⟨0, 0⟩)
    ∧ qaOnPaper question paperUrl st env = qaOnPaper question paperUrl2 st env := by
  have h1 : ∀ url : String, qaOnPaper question url st env
      = (.ok (.stored qa.answer qa.followup_questions), st, ⟨0, 0⟩) := by
    intro url
    unfold qaOnPaper
    rw [h]
  exact ⟨h1 paperUrl, by rw [h1 paperUrl, h1 paperUrl2]⟩

/-- C1 witness: the amended theorem applied to a store holding one QA
row, under two different paper urls. -/
theorem c1_qaOnPaper_dedup_witness :
    qaOnPaper "what is it" "https://a/x.pdf" stW envW
        = (.ok (.stored "stored answer" ["old follow up"]), stW, ⟨0, 0⟩)
    ∧ qaOnPaper "what is it" "https://a/x.pdf" stW envW
        = qaOnPaper "what is it" "https://b/y.pdf" stW envW := by
  have h := c1_qaOnPaper_dedup "what is it" "https://a/x.pdf" "https://b/y.pdf" stW envW
    ⟨"what is it", "stored answer", "ctx", ["old follow up"]⟩ rfl
  exact h

/-! ## Claim C4 -/

/-- C4: the paper stores never hold two records keyed by the same
source url: both save helpers preserve key uniqueness, saveToLocalStorage
leaves the file unchanged when an entry keyed by the url exists,
saveNotesLocally leaves notes.json unchanged when the url is already a
key, and main returns the stored notes without touching the database
when getPaper finds the url. -/
theorem c4_unique_url_invariant
    (st : FileState (List PaperEntry)) (nst : FileState NotesObj)
    (docs : List Document) (url name now : String) (notes : List ArxivPaperNote)
    (entries : List PaperEntry) (obj : NotesObj)
    (paperUrl paperName : String) (pages : List Nat) (db : SupaState) (env : Env)
    (row : PaperRow) :
    ((storageKeys st).Nodup →
      (storageKeys (saveToLocalStorage st docs url name notes now)).Nodup)
    ∧ ((notesKeys nst).Nodup →
      (notesKeys (saveNotesLocally nst url notes)).Nodup)
    ∧ (entries.any (fun e => e.key == url) = true →
      saveToLocalStorage (.stored entries) docs url name notes now = .stored entries)
    ∧ (obj.any (fun e => e.1 == url) = true →
      saveNotesLocally (.stored obj) url notes = .stored obj)
    ∧ (env.dbError = false → strEndsWith paperUrl ".pdf" = true →
      (selectPapersByUrl db paperUrl).head? = some row →
      main paperUrl paperName pages db env = (.ok row.notes, db)) := by
  refine ⟨storageKeys_nodup_save st docs url name now notes,
          notesKeys_nodup_save nst url notes, ?_, ?_, ?_⟩
  · intro h
    simp [saveToLocalStorage, h]
  · intro h
    simp [saveNotesLocally, h]
  · intro henv hpdf hrow
    unfold main getPaper
    simp [hpdf, henv, hrow]

/-- A concrete Supabase state holding one paper row for x.pdf. -/
def dbW : SupaState := ⟨[⟨"paper text", "x.pdf", some [noteW], "Paper"⟩], []⟩

/-- C4 witness: the invariant theorem applied to concrete one-entry
stores and a database holding the requested paper. -/
theorem c4_unique_url_invariant_witness :
    (storageKeys (saveToLocalStorage (.stored [⟨"u1.pdf", recW⟩]) docsW "u2.pdf" "N"
        [noteW] "t0")).Nodup
    ∧ (notesKeys (saveNotesLocally (.stored [("u1.pdf", [noteW])]) "u2.pdf" [note2W])).Nodup
    ∧ saveToLocalStorage (.stored [⟨"u1.pdf", recW⟩]) docsW "u1.pdf" "N" [noteW] "t0"
        = .stored [⟨"u1.pdf", recW⟩]
    ∧ saveNotesLocally (.stored [("u1.pdf", [noteW])]) "u1.pdf" [note2W]
        = .stored [("u1.pdf", [noteW])]
    ∧ main "x.pdf" "Paper" [] dbW envW = (.ok (some [noteW]), dbW) := by
  have h1 := c4_unique_url_invariant (.stored [⟨"u1.pdf", recW⟩])
    (.stored [("u1.pdf", [noteW])]) docsW "u2.pdf" "N" "t0" [noteW]
    [⟨"u1.pdf", recW⟩] [("u1.pdf", [noteW])] "x.pdf" "Paper" [] dbW envW
    ⟨"paper text", "x.pdf", some [noteW], "Paper"⟩
  have h2 := c4_unique_url_invariant (.stored [⟨"u1.pdf", recW⟩])
    (.stored [("u1.pdf", [noteW])]) docsW "u1.pdf" "N" "t0" [noteW]
    [⟨"u1.pdf", recW⟩] [("u1.pdf", [noteW])] "x.pdf" "Paper" [] dbW envW
    ⟨"paper text", "x.pdf", some [noteW], "Paper"⟩
  exact ⟨h1.1 (by decide), h1.2.1 (by decide), h2.2.2.1 (by decide),
    h2.2.2.2.1 (by decide), h1.2.2.2.2 rfl (by decide) rfl⟩

/-! ## Claim C8 -/

/-- C8: for a url with no matching row in the papers table (on a
successful query), getPaper propagates the TypeError raised by the
field access on the empty result array instead of returning null, and
main consequently throws without touching the store rather than
proceeding to ingest the paper. -/
theorem c8_getPaper_missing_row_throws (url paperName : String) (pages : List Nat)
    (st : SupaState) (env : Env)
    (henv : env.dbError = false)
    (hnone : selectPapersByUrl st url = []) :
    getPaper st env.dbError url = .error "Cannot read properties of undefined"
    ∧ main url paperName pages st env = (.error "AI minus the braids", st) := by
  have hg : getPaper st env.dbError url = .error "Cannot read properties of undefined" := by
    unfold getPaper
    simp [henv, hnone]
  refine ⟨hg, ?_⟩
  unfold main
  by_cases hp : strEndsWith url ".pdf" = false
  · simp [hp]
  · simp [hp, hg]

/-- C8 witness: the theorem applied to an empty database. -/
theorem c8_getPaper_missing_row_throws_witness :
    getPaper ⟨[], []⟩ envW.dbError "x.pdf" = .error "Cannot read properties of undefined"
    ∧ main "x.pdf" "Paper" [] ⟨[], []⟩ envW = (.error "AI minus the braids", ⟨[], []⟩) :=
  c8_getPaper_missing_row_throws "x.pdf" "Paper" [] ⟨[], []⟩ envW rfl rfl

/-! ## Claim C5 -/

/-- C5: when the model chain throws, qaModelWithHNSW returns the
generic failure marker instead of raising, and qaOnPaperV2 then skips
the QA save entirely: the returned state is the input state, so
qa_data.json is unchanged. -/
theorem c5_error_marker_no_persist (question paperUrl : String) (fs : FS) (env : Env)
    (rec : PaperRecord)
    (hthrow : env.qaThrows = true)
    (hload : env.hnswLoadFails = false)
    (hretr : env.retrieverThrows = false)
    (hdir : fs.dirExists ("vector_store/" ++ basename paperUrl) = true)
    (hrec : retrieveStored
        (fs.dataFiles ("local_storage/" ++ basename paperUrl ++ "/data.json")) paperUrl
        = .ok (some rec)) :
    qaModelWithHNSW env question env.relDocs rec.notes = [⟨"Error", ["Error"]⟩]
    ∧ qaOnPaperV2 question paperUrl fs env
        = (.ok (.answered [⟨"Error", ["Error"]⟩]), fs, ⟨1, 1⟩) := by
  have hm : qaModelWithHNSW env question env.relDocs rec.notes = [⟨"Error", ["Error"]⟩] := by
    simp [qaModelWithHNSW, hthrow]
  refine ⟨hm, ?_⟩
  unfold qaOnPaperV2
  simp [hdir, hrec, hload, hretr, hm]

/-- C5 witness: the theorem applied to the concrete store with a
throwing model chain. -/
theorem c5_error_marker_no_persist_witness :
    qaModelWithHNSW { envW with qaThrows := true } "q1"
        { envW with qaThrows := true }.relDocs recW.notes = [⟨"Error", ["Error"]⟩]
    ∧ qaOnPaperV2 "q1" urlW fsW { envW with qaThrows := true }
        = (.ok (.answered [⟨"Error", ["Error"]⟩]), fsW, ⟨1, 1⟩) :=
  c5_error_marker_no_persist "q1" urlW fsW { envW with qaThrows := true } recW
    rfl rfl rfl rfl rfl

/-! ## Claim C6 -/

/-- C6 counterexample: the vector store directory exists and the local
storage data.json exists but is empty, so no stored notes exist for the
paper; qaOnPaperV2 then throws the JSON parse error of the empty file,
not the claimed No text found. -/
theorem c6_counterexample :
    fsEmptyData.dirExists ("vector_store/" ++ basename urlW) = true
    ∧ fsEmptyData.dataFiles "local_storage/p.pdf/data.json" = .empty
    ∧ (qaOnPaperV2 "q" urlW fsEmptyData envW).1 = .error "Unexpected end of JSON input"
    ∧ ("Unexpected end of JSON input" : String) ≠ "No text found" := by
  refine ⟨rfl, rfl, rfl, by decide⟩

/-- C6 (amended): qaOnPaperV2 throws No vector store directory found
when the vector store directory is missing, and No text found when the
data.json file is missing or holds no entry keyed by the url, both with
zero model and retriever calls and an unchanged state; when the file
exists but is empty the JSON parse error propagates instead; and a
successful answer implies the directory existed and a stored record was
found. -/
theorem c6_qaOnPaperV2_preconditions (question paperUrl : String) (fs : FS) (env : Env) :
    (fs.dirExists ("vector_store/" ++ basename paperUrl) = false →
      qaOnPaperV2 question paperUrl fs env
        = (.error "No vector store directory found", fs, ⟨0, 0⟩))
    ∧ (fs.dirExists ("vector_store/" ++ basename paperUrl) = true →
       retrieveStored (fs.dataFiles ("local_storage/" ++ basename paperUrl ++ "/data.json"))
          paperUrl = .ok none →
      qaOnPaperV2 question paperUrl fs env = (.error "No text found", fs, ⟨0, 0⟩))
    ∧ (fs.dirExists ("vector_store/" ++ basename paperUrl) = true →
       fs.dataFiles ("local_storage/" ++ basename paperUrl ++ "/data.json") = .empty →
      qaOnPaperV2 question paperUrl fs env
        = (.error "Unexpected end of JSON input", fs, ⟨0, 0⟩))
    ∧ (∀ res, (qaOnPaperV2 question paperUrl fs env).1 = .ok (.answered res) →
        fs.dirExists ("vector_store/" ++ basename paperUrl) = true
        ∧ ∃ rec, retrieveStored
            (fs.dataFiles ("local_storage/" ++ basename paperUrl ++ "/data.json")) paperUrl
            = .ok (some rec)) := by
  refine ⟨?_, ?_, ?_, ?_⟩
  · intro hdir
    unfold qaOnPaperV2
    simp [hdir]
  · intro hdir hnone
    unfold qaOnPaperV2
    simp [hdir, hnone]
  · intro hdir hempty
    unfold qaOnPaperV2
    simp [hdir, hempty, retrieveStored]
  · intro res h
    by_cases hdir : fs.dirExists ("vector_store/" ++ basename paperUrl) = true
    · refine ⟨hdir, ?_⟩
      cases hr : retrieveStored
          (fs.dataFiles ("local_storage/" ++ basename paperUrl ++ "/data.json")) paperUrl with
      | error e =>
        unfold qaOnPaperV2 at h
        simp [hdir, hr] at h
      | ok orec =>
        cases orec with
        | none =>
          unfold qaOnPaperV2 at h
          simp [hdir, hr] at h
        | some rec => exact ⟨rec, rfl⟩
    · have hdf : fs.dirExists ("vector_store/" ++ basename paperUrl) = false := by
        revert hdir
        cases fs.dirExists ("vector_store/" ++ basename paperUrl) <;> simp
      unfold qaOnPaperV2 at h
      simp [hdf] at h

/-- C6 witness: the amended theorem applied to a store without the
vector directory and to a store without the data.json file. -/
theorem c6_qaOnPaperV2_preconditions_witness :
    qaOnPaperV2 "q" urlW { fsW with dirExists := fun _ => false } envW
        = (.error "No vector store directory found",
           { fsW with dirExists := fun _ => false }, ⟨0, 0⟩)
    ∧ qaOnPaperV2 "q" urlW { fsW with dataFiles := fun _ => .missing } envW
        = (.error "No text found", { fsW with dataFiles := fun _ => .missing }, ⟨0, 0⟩) := by
  have h1 := c6_qaOnPaperV2_preconditions "q" urlW { fsW with dirExists := fun _ => false } envW
  have h2 := c6_qaOnPaperV2_preconditions "q" urlW { fsW with dataFiles := fun _ => .missing } envW
  exact ⟨h1.1 rfl, h2.2.1 rfl rfl⟩

/-! ## Claim C10 -/

/-- C10: mainV2 throws Invalid PDF or file path. exactly when the url
neither passes the pdf-url regular expression nor names an existing
local file, or does not end in .pdf; consequently every accepted input
ends in .pdf. -/
theorem c10_mainV2_validation (paperUrl paperName : String) (pages : List Nat)
    (fs : FS) (env : Env) :
    ((mainV2 paperUrl paperName pages fs env).1 = .error "Invalid PDF or file path."
      ↔ ((jsIsPdfUrl paperUrl = false ∧ fs.pathExists paperUrl = false)
          ∨ strEndsWith paperUrl ".pdf" = false))
    ∧ ((mainV2 paperUrl paperName pages fs env).1 ≠ .error "Invalid PDF or file path."
        → strEndsWith paperUrl ".pdf" = true) := by
  have hbody : ∀ (a b : Bool),
      (mainV2Body paperUrl paperName pages a b fs env).1
        ≠ .error "Invalid PDF or file path." := by
    intro a b
    unfold mainV2Body
    cases hnf : fs.notesFiles ("generated_notes/" ++ basename paperUrl ++ "/data.json") with
    | missing => simp [retrieveStored, hnf]
    | empty =>
      simp only [retrieveStored, hnf]
      intro h
      exact absurd (Except.error.inj h) (by decide)
    | stored entries =>
      simp only [retrieveStored, hnf]
      cases hf : entries.find? (fun x => x.key == paperUrl) with
      | some x => simp [hf]
      | none => simp [hf]
  cases hjs : jsIsPdfUrl paperUrl <;> cases hpe : fs.pathExists paperUrl <;>
      cases hew : strEndsWith paperUrl ".pdf" <;>
      simp only [mainV2, hjs, hpe, hew, Bool.not_false, Bool.not_true, Bool.and_self,
        Bool.true_and, Bool.false_and, Bool.and_false, Bool.true_or, Bool.or_true,
        Bool.or_false, Bool.false_or, if_true, if_false] <;>
      simp [hbody]

/-- C10 witness: the theorem applied to a name that does not end in
.pdf, forcing the validation throw. -/
theorem c10_mainV2_validation_witness :
    (mainV2 "notes.txt" "N" [] fsW envW).1 = .error "Invalid PDF or file path." := by
  have h := c10_mainV2_validation "notes.txt" "N" [] fsW envW
  exact h.1.mpr (Or.inr (by decide))

end Rag101
